import Mathlib

/-!
Verification development for the Node.js runtime emulator of
`packages/sst/support/nodejs-runtime/index.ts`.

The source program is a single-threaded async loop: it resolves a handler
module on disk, then repeatedly polls a local control endpoint for an
invocation, calls the handler, and posts the result (or error) back, with a
15-minute idle watchdog timer re-armed at the top of every loop iteration.

The embedding below is a shallow one: the environment (HTTP fetch outcomes,
handler behaviour, durations of each blocking wait) is supplied as an oracle,
and the interpreter `runLoop` produces the timestamped trace of observable
actions the process performs, faithfully following the control flow of the
source.  Time is measured in milliseconds; the watchdog `setTimeout` callback
(`process.exit(0)`) can only run while the main flow is suspended at an
`await`, so the model fires it during the first wait whose completion time
is strictly past the armed deadline.
-/

namespace SstNodeRuntime

/-- JavaScript/JSON values, covering the fragment of values the embedded
models of the JSON.parse / JSON.stringify builtins handle. -/
inductive JSVal where
  | null
  | bool (b : Bool)
  | num (n : Int)
  | str (s : String)
  | arr (elems : List JSVal)
  | obj (fields : List (String × JSVal))

/-- Escape of a single character inside a JSON string literal (quote and
backslash only; the fragment excludes control characters). -/
def escChar (c : Char) : String :=
  if c = '"' then "\\\"" else if c = '\\' then "\\\\" else String.singleton c

/-- Escape of a string for inclusion in a JSON string literal. -/
def escapeStr (s : String) : String :=
  String.join (s.toList.map escChar)

mutual

/-- Models the JSON.stringify builtin on the `JSVal` fragment (no `undefined`,
no floating point, insertion-ordered object keys). -/
def jsonStringify : JSVal → String
  | .null => "null"
  | .bool true => "true"
  | .bool false => "false"
  | .num n => toString n
  | .str s => "\"" ++ escapeStr s ++ "\""
  | .arr xs => "[" ++ stringifyElems xs ++ "]"
  | .obj fs => "\x7b" ++ stringifyFields fs ++ "\x7d"

/-- Comma-separated serialization of JSON array elements. -/
def stringifyElems : List JSVal → String
  | [] => ""
  | [x] => jsonStringify x
  | x :: y :: rest => jsonStringify x ++ "," ++ stringifyElems (y :: rest)

/-- Comma-separated serialization of JSON object fields. -/
def stringifyFields : List (String × JSVal) → String
  | [] => ""
  | [(k, v)] => "\"" ++ escapeStr k ++ "\":" ++ jsonStringify v
  | (k, v) :: y :: rest =>
      "\"" ++ escapeStr k ++ "\":" ++ jsonStringify v ++ "," ++ stringifyFields (y :: rest)

end

/-- JSON whitespace. -/
def isWsChar (c : Char) : Bool :=
  c == ' ' || c == '\t' || c == '\n' || c == '\r'

/-- Drop leading JSON whitespace. -/
def skipWs (l : List Char) : List Char := l.dropWhile isWsChar

/-- ASCII digit test. -/
def isDigitC (c : Char) : Bool := '0' ≤ c && c ≤ '9'

/-- Numeric value of an ASCII digit. -/
def digitVal (c : Char) : Nat := c.toNat - 48

/-- Consume an expected literal character sequence. -/
def parseLit : List Char → List Char → Option (List Char)
  | [], l => some l
  | _ :: _, [] => none
  | c :: cs, d :: ds => if c = d then parseLit cs ds else none

/-- Accumulate a run of leading digits. -/
def parseDigitsAux : Nat → List Char → Nat × List Char
  | acc, [] => (acc, [])
  | acc, c :: cs =>
      if isDigitC c then parseDigitsAux (acc * 10 + digitVal c) cs else (acc, c :: cs)

/-- Parse a nonempty run of digits. -/
def parseDigits (l : List Char) : Option (Nat × List Char) :=
  match l with
  | c :: _ => if isDigitC c then some (parseDigitsAux 0 l) else none
  | [] => none

/-- Parse a JSON number (integer fragment: optional minus then digits). -/
def parseNum : List Char → Option (JSVal × List Char)
  | '-' :: cs => (parseDigits cs).map (fun p => (.num (-(p.1 : Int)), p.2))
  | l => (parseDigits l).map (fun p => (.num (p.1 : Int), p.2))

/-- Parse the body of a JSON string after the opening quote (fragment without
escape sequences: a backslash makes the parse fail). -/
def parseStrChars : List Char → Option (List Char × List Char)
  | [] => none
  | c :: cs =>
      if c = '"' then some ([], cs)
      else if c = '\\' then none
      else (parseStrChars cs).map (fun p => (c :: p.1, p.2))

mutual

/-- Recursive-descent JSON value parser (fuelled). -/
def parseVal : Nat → List Char → Option (JSVal × List Char)
  | 0, _ => none
  | f + 1, l =>
    match skipWs l with
    | [] => none
    | c :: cs =>
      if c = 'n' then (parseLit ['u', 'l', 'l'] cs).map (fun r => (JSVal.null, r))
      else if c = 't' then (parseLit ['r', 'u', 'e'] cs).map (fun r => (JSVal.bool true, r))
      else if c = 'f' then (parseLit ['a', 'l', 's', 'e'] cs).map (fun r => (JSVal.bool false, r))
      else if c = '"' then (parseStrChars cs).map (fun p => (JSVal.str (String.mk p.1), p.2))
      else if c = '-' || isDigitC c then parseNum (c :: cs)
      else if c = '[' then
        match skipWs cs with
        | ']' :: r => some (JSVal.arr [], r)
        | l2 => (parseElems f l2).map (fun p => (JSVal.arr p.1, p.2))
      else if c = '\x7b' then
        match skipWs cs with
        | '\x7d' :: r => some (JSVal.obj [], r)
        | l2 => (parseFields f l2).map (fun p => (JSVal.obj p.1, p.2))
      else none

/-- Parse one-or-more array elements up to the closing bracket. -/
def parseElems : Nat → List Char → Option (List JSVal × List Char)
  | 0, _ => none
  | f + 1, l =>
    match parseVal f l with
    | none => none
    | some (v, r) =>
      match skipWs r with
      | ',' :: r2 => (parseElems f r2).map (fun p => (v :: p.1, p.2))
      | ']' :: r2 => some ([v], r2)
      | _ => none

/-- Parse one-or-more object fields up to the closing brace. -/
def parseFields : Nat → List Char → Option (List (String × JSVal) × List Char)
  | 0, _ => none
  | f + 1, l =>
    match skipWs l with
    | '"' :: cs =>
      match parseStrChars cs with
      | none => none
      | some (k, r) =>
        match skipWs r with
        | ':' :: r2 =>
          match parseVal f r2 with
          | none => none
          | some (v, r3) =>
            match skipWs r3 with
            | ',' :: r4 => (parseFields f r4).map (fun p => ((String.mk k, v) :: p.1, p.2))
            | '\x7d' :: r4 => some ([(String.mk k, v)], r4)
            | _ => none
        | _ => none
    | _ => none

end

/-- Models the JSON.parse builtin on the fragment above; `none` corresponds to
the builtin throwing a SyntaxError.  (Inputs outside the fragment — floating
point numbers, string escapes — are mapped to `none`.) -/
def jsonParse (s : String) : Option JSVal :=
  match parseVal (2 * s.length + 8) s.toList with
  | some (v, r) => if skipWs r = [] then some v else none
  | none => none

/-! ## Handler resolution (startup phase)

Source: the top of `index.ts` — `path.parse(input.handler)`, the extension
probe over `[".js", ".jsx", ".mjs", ".cjs"]`, the dynamic import, and the
export lookup `mod[parsed.ext.substring(1)]`. -/

/-- The `workerData` startup configuration fields the resolver reads
(`input.handler` is the handler locator, `input.out` the compiled-output
directory; `input.url` only feeds the HTTP client and is left implicit). -/
structure RunnerInput where
  handler : String
  out : String

/-- The fields of Node's `path.parse` result that the program reads. -/
structure ParsedPath where
  dir : String
  name : String
  ext : String

/-- Split a character list at the last occurrence of `c`: returns the part
before and the part after that occurrence (the occurrence itself removed),
or `none` when `c` does not occur. -/
def breakLast (c : Char) (l : List Char) : Option (List Char × List Char) :=
  let suf := (l.reverse.takeWhile (fun x => !(x == c))).reverse
  if suf.length = l.length then none
  else some (l.take (l.length - suf.length - 1), suf)

/-- Models Node's `path.parse` restricted to the fields the program reads:
`dir` is everything before the last slash, `base` after it; `ext` is the part
of `base` from its last dot on (empty when there is no dot or the dot is the
first character of `base`), and `name` is `base` without `ext`. -/
def pathParse (p : String) : ParsedPath :=
  let chars := p.toList
  let (dirC, baseC) :=
    match breakLast '/' chars with
    | none => (([] : List Char), chars)
    | some (d, b) => (d, b)
  match breakLast '.' baseC with
  | none => ⟨String.mk dirC, String.mk baseC, ""⟩
  | some (n, e) =>
    if n = [] then ⟨String.mk dirC, String.mk baseC, ""⟩
    else ⟨String.mk dirC, String.mk n, String.mk ('.' :: e)⟩

/-- Models `path.join` on the three segments the program joins (empty segments
are dropped; no `..`/`.` normalization, which the program never relies on). -/
def pathJoin3 (a b c : String) : String :=
  String.intercalate "/" (([a, b, c]).filter (fun s => !(s == "")))

/-- The fixed ordered extension list probed by the resolver, verbatim from
the source: `[".js", ".jsx", ".mjs", ".cjs"]`. -/
def extList : List String := [".js", ".jsx", ".mjs", ".cjs"]

/-- The candidate files, in probe order:
`path.join(input.out, parsed.dir, parsed.name + ext)` for each extension. -/
def candidateFiles (input : RunnerInput) : List String :=
  extList.map (fun ext =>
    pathJoin3 input.out (pathParse input.handler).dir ((pathParse input.handler).name ++ ext))

/-- The extension probe: `fs.existsSync` modelled by membership in the list
`fsFiles` of existing files; `List.find?` mirrors `Array.prototype.find`
(first existing candidate wins, `none` models the `undefined` the non-null
assertion papers over). -/
def resolveFile (fsFiles : List String) (input : RunnerInput) : Option String :=
  (candidateFiles input).find? (fun f => fsFiles.contains f)

/-- A loaded module, abstracted to its export names paired with the JS
truthiness of each export's value — the only two aspects the program
inspects (`Object.keys(mod)` and the `if (!fn)` check). -/
abbrev Module := List (String × Bool)

/-- Export lookup `mod[name]`: `none` models `undefined` (absent export). -/
def modLookup (m : Module) (name : String) : Option Bool :=
  (m.find? (fun p => p.1 == name)).map Prod.snd

/-- The diagnostic message thrown when the export is missing or falsy,
verbatim from the source:
`Function "<name>" not found in "<locator>". Found <keys joined by ", ">`. -/
def notFoundMsg (handlerName locator : String) (exportNames : List String) : String :=
  "Function \"" ++ handlerName ++ "\" not found in \"" ++ locator ++ "\". Found " ++
    String.intercalate ", " exportNames

/-- The message of the TypeError `url.pathToFileURL(undefined)` throws when
the extension probe found no existing file (the `!` assertion is erased at
runtime, so `file` is `undefined` there). -/
def pathToFileURLTypeError : String :=
  "The \"path\" argument must be of type string. Received undefined"

/-- Outcome of the startup `try` block: either the handler was resolved
(recording which file was loaded and which export was picked), or the block
threw with the given error message. -/
inductive InitResult where
  | ok (file : String) (exportName : String)
  | fail (errorMessage : String)

/-- The startup phase, translated from the source: probe the candidate files,
load the first existing one (`mods` models the module loader: `.error m`
is an import that throws with message `m`), pick the export named by
`parsed.ext.substring(1)`, and throw the diagnostic when it is absent or
falsy (`if (!fn)`). -/
def initStep (fsFiles : List String) (mods : String → Except String Module)
    (input : RunnerInput) : InitResult :=
  match resolveFile fsFiles input with
  | none => .fail pathToFileURLTypeError
  | some file =>
    match mods file with
    | .error m => .fail m
    | .ok exps =>
      let handlerName := (pathParse input.handler).ext.drop 1
      match modLookup exps handlerName with
      | some true => .ok file handlerName
      | _ => .fail (notFoundMsg handlerName input.handler (exps.map Prod.fst))

/-! ## The invocation loop

Source: the `while (true)` loop of `index.ts`.  The environment is an oracle:
for each iteration it supplies the outcome and duration of the poll, of the
handler call, of the error POST, and of each response POST attempt.  The
interpreter emits the timestamped trace of observable actions. -/

/-- Watchdog duration, verbatim from the source: `1000 * 60 * 15` ms. -/
def WATCHDOG_MS : Nat := 1000 * 60 * 15

/-- Path of the poll request. -/
def pollPath : String := "/runtime/invocation/next"

/-- Path of the one-shot init error report. -/
def initErrorPath : String := "/runtime/init/error"

/-- Name of the response header carrying the request id. -/
def reqIdHeader : String := "lambda-runtime-aws-request-id"

/-- Name of the response header carrying the invoked function ARN. -/
def arnHeader : String := "lambda-runtime-invoked-function-arn"

/-- Header lookup in the (Node-lowercased) response-header map; `none`
models `undefined` for an absent header. -/
def hLookup (hs : List (String × String)) (k : String) : Option String :=
  (hs.find? (fun p => p.1 == k)).map Prod.snd

/-- JS template-literal stringification of a possibly-`undefined` string
(`undefined` interpolates as the text `undefined`). -/
def jsTemplateStr : Option String → String
  | some s => s
  | none => "undefined"

/-- The invocation-error POST path built by the source:
`/runtime/invocation/${context.awsRequestId}/error`. -/
def errorPath (reqId : Option String) : String :=
  "/runtime/invocation/" ++ jsTemplateStr reqId ++ "/error"

/-- The invocation-response POST path built by the source:
`/runtime/invocation/${context.awsRequestId}/response`. -/
def responsePath (reqId : Option String) : String :=
  "/runtime/invocation/" ++ jsTemplateStr reqId ++ "/response"

/-- The JSON error body `{errorType: "Error", errorMessage: …, trace: …}`;
when the thrown value has no stack (`ex.stack?.split("\n")` is `undefined`),
JSON.stringify drops the `trace` key. -/
def errorBody (msg : String) (stack : Option (List String)) : String :=
  jsonStringify (.obj
    ([("errorType", .str "Error"), ("errorMessage", .str msg)] ++
      (match stack with
       | some ls => [("trace", .arr (ls.map .str))]
       | none => [])))

/-- Oracle outcome of the poll GET: it hangs forever, rejects after `dur` ms
(transport error), or resolves after `dur` ms with headers and a body (the
source ignores the status code entirely). -/
inductive GetOut where
  | hang
  | err (dur : Nat)
  | ok (dur : Nat) (headers : List (String × String)) (body : String)

/-- Oracle outcome of the handler call: it never settles while starving the
event loop (synchronous infinite loop — no timer can fire), never settles
while suspended at an await (timers can fire), returns a value after `dur`
ms, or throws after `dur` ms. -/
inductive HOut where
  | hangSync
  | hangAsync
  | ret (dur : Nat) (v : JSVal)
  | throws (dur : Nat) (msg : String) (stack : Option (List String))

/-- Oracle outcome of one POST attempt: hangs forever, or completes after
`dur` ms with success (`ok = true`, HTTP resolves) or transport failure. -/
inductive PostOut where
  | hang
  | comp (dur : Nat) (ok : Bool)

/-- The oracle events one loop iteration can consume.  Fields beyond the
point the iteration actually reaches are ignored. -/
structure IterEv where
  poll : GetOut
  handler : HOut
  errPost : PostOut
  respPosts : List PostOut

/-- Observable actions of the process.  The three POST call sites of the
source (init error, invocation error, invocation response) are distinct
constructors because they are distinct code paths. -/
inductive Act where
  | arm (deadline : Nat)
  | getReq (path : String)
  | getOk (headers : List (String × String)) (body : String)
  | getErr
  | invokeStart (event : JSVal) (reqId : Option String) (arn : Option String)
  | invokeRet (v : JSVal)
  | invokeThrew (msg : String)
  | initPostReq (path : String) (body : String)
  | initPostDone (ok : Bool)
  | errPostReq (path : String) (body : String)
  | errPostDone (ok : Bool)
  | respPostReq (path : String) (body : String)
  | respPostOk
  | respPostErr
  | sleep (ms : Nat)
  | exit (code : Nat)

/-- A timestamped action (milliseconds since process start). -/
abbrev TAct := Nat × Act

/-- The response-delivery retry loop (inner `while (true)`), translated from
the source: POST; on success `break`; on failure log, `await` 500 ms, retry.
The armed watchdog deadline `D` is checked at every suspension: a wait whose
completion time is strictly past `D` lets the `process.exit(0)` timer
callback run first.  Returns the emitted actions and `some now'` when the
outer loop proceeds; `none` when the run ended (exit, or oracle exhausted
mid-retry — a truncated observation). -/
def respRetry (D : Nat) (p body : String) : Nat → List PostOut → List TAct × Option Nat
  | now, [] => ([(now, .respPostReq p body)], none)
  | now, .hang :: _ => ([(now, .respPostReq p body), (D, .exit 0)], none)
  | now, .comp d true :: _ =>
      if D < now + d then ([(now, .respPostReq p body), (D, .exit 0)], none)
      else ([(now, .respPostReq p body), (now + d, .respPostOk)], some (now + d))
  | now, .comp d false :: rest =>
      if D < now + d then ([(now, .respPostReq p body), (D, .exit 0)], none)
      else if D < now + d + 500 then
        ([(now, .respPostReq p body), (now + d, .respPostErr), (D, .exit 0)], none)
      else
        let r := respRetry D p body (now + d + 500) rest
        ((now, .respPostReq p body) :: (now + d, .respPostErr) :: (now + d + 500, .sleep 500)
          :: r.1, r.2)

/-- The single, awaited invocation-error POST (the `catch` branch of the
handler call).  When the POST resolves the loop `continue`s whatever the
HTTP status was; but this `await fetch` is NOT wrapped in a try of its own,
so a transport-level rejection escapes the `catch` block and the top-level
module evaluation, terminating the worker with an uncaught error (exit
code 1, emitted here as `exit 1`). -/
def doErrPost (D : Nat) (now : Nat) (reqId : Option String) (msg : String)
    (stack : Option (List String)) (o : PostOut) : List TAct × Option Nat :=
  let p := errorPath reqId
  let b := errorBody msg stack
  match o with
  | .hang => ([(now, .errPostReq p b), (D, .exit 0)], none)
  | .comp d true =>
      if D < now + d then ([(now, .errPostReq p b), (D, .exit 0)], none)
      else ([(now, .errPostReq p b), (now + d, .errPostDone true)], some (now + d))
  | .comp d false =>
      if D < now + d then ([(now, .errPostReq p b), (D, .exit 0)], none)
      else ([(now, .errPostReq p b), (now + d, .errPostDone false), (now + d, .exit 1)], none)

/-- One iteration of the `while (true)` loop, translated from the source:
re-arm the watchdog (`clearTimeout` + `setTimeout` of 900 000 ms), poll
(`continue` on transport error or on a `JSON.parse` throw), build the
context from the two headers, call the handler, and deliver the error
(once) or the response (retried).  Returns the emitted actions and
`some now'` when the loop proceeds to the next iteration. -/
def runIter (t : Nat) (ev : IterEv) : List TAct × Option Nat :=
  let D := t + WATCHDOG_MS
  let pre : List TAct := [(t, .arm D), (t, .getReq pollPath)]
  match ev.poll with
  | .hang => (pre ++ [(D, .exit 0)], none)
  | .err d =>
      if D < t + d then (pre ++ [(D, .exit 0)], none)
      else (pre ++ [(t + d, .getErr)], some (t + d))
  | .ok d headers body =>
      if D < t + d then (pre ++ [(D, .exit 0)], none)
      else
        let t1 := t + d
        let rid := hLookup headers reqIdHeader
        let arn := hLookup headers arnHeader
        match jsonParse body with
        | none => (pre ++ [(t1, .getOk headers body)], some t1)
        | some event =>
          let preI := pre ++ [(t1, .getOk headers body), (t1, .invokeStart event rid arn)]
          match ev.handler with
          | .hangSync => (preI, none)
          | .hangAsync => (preI ++ [(D, .exit 0)], none)
          | .throws dh msg stack =>
              if D < t1 + dh then (preI ++ [(D, .exit 0)], none)
              else
                let t2 := t1 + dh
                let r := doErrPost D t2 rid msg stack ev.errPost
                (preI ++ [(t2, .invokeThrew msg)] ++ r.1, r.2)
          | .ret dh v =>
              if D < t1 + dh then (preI ++ [(D, .exit 0)], none)
              else
                let t2 := t1 + dh
                let r := respRetry D (responsePath rid) (jsonStringify v) t2 ev.respPosts
                (preI ++ [(t2, .invokeRet v)] ++ r.1, r.2)

/-- The full invocation loop: iterations happen strictly in sequence, each
driven by the next oracle event; a `none` continuation ends the trace
(process exit, event-loop starvation, or exhausted observation horizon). -/
def runLoop : Nat → List IterEv → List TAct
  | _, [] => []
  | t, ev :: rest =>
    let r := runIter t ev
    r.1 ++ (match r.2 with
            | some t' => runLoop t' rest
            | none => [])

/-- The whole program, translated from the source: run the startup `try`
block; on failure POST the init error once and `process.exit(1)` (a
transport failure of that very POST escapes the `catch` as an unhandled
rejection, which also terminates the worker with exit code 1, emitted here
as the same `exit 1`; a hung POST leaves the process waiting forever);
on success enter the invocation loop with no poll ever issued before it. -/
def runProgram (fsFiles : List String) (mods : String → Except String Module)
    (input : RunnerInput) (initStack : Option (List String)) (initPost : PostOut)
    (evs : List IterEv) : List TAct :=
  match initStep fsFiles mods input with
  | .ok _ _ => runLoop 0 evs
  | .fail msg =>
    let req : TAct := (0, .initPostReq initErrorPath (errorBody msg initStack))
    match initPost with
    | .hang => [req]
    | .comp d ok => [req, (d, .initPostDone ok), (d, .exit 1)]

/-! ## Trace checkers

Boolean automata over traces, formalizing the spec-side properties the
claims state about executions. -/

/-- One step of the single-in-flight automaton: the state records whether an
invocation's terminal delivery is outstanding.  Issuing a poll or starting a
handler call while one is outstanding is a violation (`none`); the awaited
invocation-error POST completing (either way) or a response POST succeeding
is the terminal delivery. -/
def seqStep (inflight : Bool) : Act → Option Bool
  | .getReq _ => if inflight then none else some false
  | .invokeStart _ _ _ => if inflight then none else some true
  | .errPostDone _ => some false
  | .respPostOk => some false
  | _ => some inflight

/-- Run the single-in-flight automaton over a trace. -/
def seqRun (b : Bool) : List TAct → Option Bool
  | [] => some b
  | ta :: rest =>
    match seqStep b ta.2 with
    | none => none
    | some b' => seqRun b' rest

/-- One step of the request-id-threading automaton: the state holds the
request id extracted (by `hLookup … reqIdHeader`) from the most recent poll
response; a delivery POST whose path is not the one built from that id is a
violation. -/
def ridStep (cur : Option (Option String)) : Act → Option (Option (Option String))
  | .getOk headers _ => some (some (hLookup headers reqIdHeader))
  | .errPostReq p _ =>
    match cur with
    | some r => if p = errorPath r then some cur else none
    | none => none
  | .respPostReq p _ =>
    match cur with
    | some r => if p = responsePath r then some cur else none
    | none => none
  | _ => some cur

/-- Run the request-id-threading automaton over a trace. -/
def ridRun (cur : Option (Option String)) : List TAct → Option (Option (Option String))
  | [] => some cur
  | ta :: rest =>
    match ridStep cur ta.2 with
    | none => none
    | some cur' => ridRun cur' rest

/-- Count the actions of a trace satisfying a predicate. -/
def countActs (p : Act → Bool) (l : List TAct) : Nat :=
  (l.filter (fun ta => p ta.2)).length

/-- Poll request test. -/
def isGetReq : Act → Bool
  | .getReq _ => true
  | _ => false

/-- Successful poll response test. -/
def isGetOk : Act → Bool
  | .getOk _ _ => true
  | _ => false

/-- Response-POST attempt test. -/
def isRespPostReq : Act → Bool
  | .respPostReq _ _ => true
  | _ => false

/-- Successful response-POST test. -/
def isRespPostOk : Act → Bool
  | .respPostOk => true
  | _ => false

/-- Invocation-error POST attempt test. -/
def isErrPostReq : Act → Bool
  | .errPostReq _ _ => true
  | _ => false

/-- Init-error POST attempt test. -/
def isInitPostReq : Act → Bool
  | .initPostReq _ _ => true
  | _ => false

/-- Any POST attempt test. -/
def isAnyPostReq : Act → Bool
  | .initPostReq _ _ => true
  | .errPostReq _ _ => true
  | .respPostReq _ _ => true
  | _ => false

/-- Process-exit test. -/
def isExit : Act → Bool
  | .exit _ => true
  | _ => false

/-- Whether a trace contains a `process.exit` with the given code. -/
def hasExitCode (code : Nat) (l : List TAct) : Bool :=
  l.any (fun ta =>
    match ta.2 with
    | .exit c => c == code
    | _ => false)

/-- Whether a trace contains any `process.exit`. -/
def hasAnyExit (l : List TAct) : Bool := l.any (fun ta => isExit ta.2)

/-- HTTP request issuance test (what the control endpoint observes). -/
def isRequest (a : Act) : Bool := isGetReq a || isAnyPostReq a

/-- The subtrace of HTTP requests issued, with their timestamps. -/
def requestsOf (l : List TAct) : List TAct :=
  l.filter (fun ta => isRequest ta.2)

/-- The largest timestamp occurring in a trace. -/
def maxTime (l : List TAct) : Nat :=
  l.foldr (fun ta m => max ta.1 m) 0

/-- Checks that every failed response-POST is immediately followed by the
fixed 500 ms wait. -/
def postErrThenSleep : List TAct → Bool
  | (_, .respPostErr) :: rest =>
    (match rest with
     | (_, .sleep 500) :: _ => true
     | _ => false) && postErrThenSleep rest
  | _ :: rest => postErrThenSleep rest
  | [] => true

/-! ## Generic automaton lemmas -/

/-- Unfolding of one loop iteration inside the full loop. -/
theorem runLoop_cons (t : Nat) (ev : IterEv) (rest : List IterEv) :
    runLoop t (ev :: rest) =
      (runIter t ev).1 ++
        (match (runIter t ev).2 with
         | some t' => runLoop t' rest
         | none => []) := rfl

/-- The single-in-flight automaton runs over an append compositionally. -/
theorem seqRun_append (xs : List TAct) : ∀ (ys : List TAct) (b : Bool),
    seqRun b (xs ++ ys) =
      match seqRun b xs with
      | none => none
      | some b' => seqRun b' ys := by
  induction xs with
  | nil => intro ys b; simp [seqRun]
  | cons ta rest ih =>
    intro ys b
    simp only [List.cons_append, seqRun]
    cases seqStep b ta.2 with
    | none => rfl
    | some b' => exact ih ys b'

/-- The request-id automaton runs over an append compositionally. -/
theorem ridRun_append (xs : List TAct) : ∀ (ys : List TAct) (cur : Option (Option String)),
    ridRun cur (xs ++ ys) =
      match ridRun cur xs with
      | none => none
      | some cur' => ridRun cur' ys := by
  induction xs with
  | nil => intro ys cur; simp [ridRun]
  | cons ta rest ih =>
    intro ys cur
    simp only [List.cons_append, ridRun]
    cases ridStep cur ta.2 with
    | none => rfl
    | some cur' => exact ih ys cur'

/-- During the response retry loop no poll is issued and no handler started;
on normal completion the invocation is no longer in flight. -/
theorem seqRun_respRetry (D : Nat) (p b : String) :
    ∀ (outs : List PostOut) (now : Nat),
      seqRun true (respRetry D p b now outs).1 ≠ none ∧
      (∀ t', (respRetry D p b now outs).2 = some t' →
        seqRun true (respRetry D p b now outs).1 = some false) := by
  intro outs
  induction outs with
  | nil =>
    intro now
    refine ⟨by simp [respRetry, seqRun, seqStep], ?_⟩
    intro t' h
    simp [respRetry] at h
  | cons o rest ih =>
    intro now
    cases o with
    | hang =>
      refine ⟨by simp [respRetry, seqRun, seqStep], ?_⟩
      intro t' h
      simp [respRetry] at h
    | comp d ok =>
      cases ok with
      | true =>
        by_cases hd : D < now + d
        · refine ⟨by simp [respRetry, hd, seqRun, seqStep], ?_⟩
          intro t' h
          simp [respRetry, hd] at h
        · exact ⟨by simp [respRetry, hd, seqRun, seqStep],
            fun t' _ => by simp [respRetry, hd, seqRun, seqStep]⟩
      | false =>
        by_cases hd : D < now + d
        · refine ⟨by simp [respRetry, hd, seqRun, seqStep], ?_⟩
          intro t' h
          simp [respRetry, hd] at h
        · by_cases hd2 : D < now + d + 500
          · refine ⟨by simp [respRetry, hd, hd2, seqRun, seqStep], ?_⟩
            intro t' h
            simp [respRetry, hd, hd2] at h
          · have hrec := ih (now + d + 500)
            refine ⟨?_, ?_⟩
            · simpa [respRetry, hd, hd2, seqRun, seqStep] using hrec.1
            · intro t' h
              simp only [respRetry, if_neg hd, if_neg hd2] at h ⊢
              simpa [seqRun, seqStep] using hrec.2 t' h

/-- The awaited invocation-error POST completes the terminal delivery
whenever the loop proceeds. -/
theorem seqRun_doErrPost (D now : Nat) (reqId : Option String) (msg : String)
    (stack : Option (List String)) (o : PostOut) :
    seqRun true (doErrPost D now reqId msg stack o).1 ≠ none ∧
    (∀ t', (doErrPost D now reqId msg stack o).2 = some t' →
      seqRun true (doErrPost D now reqId msg stack o).1 = some false) := by
  cases o with
  | hang =>
    refine ⟨by simp [doErrPost, seqRun, seqStep], ?_⟩
    intro t' h
    simp [doErrPost] at h
  | comp d ok =>
    cases ok with
    | true =>
      by_cases hd : D < now + d
      · refine ⟨by simp [doErrPost, hd, seqRun, seqStep], ?_⟩
        intro t' h
        simp [doErrPost, hd] at h
      · exact ⟨by simp [doErrPost, hd, seqRun, seqStep],
          fun t' _ => by simp [doErrPost, hd, seqRun, seqStep]⟩
    | false =>
      by_cases hd : D < now + d
      · refine ⟨by simp [doErrPost, hd, seqRun, seqStep], ?_⟩
        intro t' h
        simp [doErrPost, hd] at h
      · refine ⟨by simp [doErrPost, hd, seqRun, seqStep], ?_⟩
        intro t' h
        simp [doErrPost, hd] at h

/-- Within one loop iteration the single-in-flight automaton never flags a
violation, and when the loop proceeds to the next iteration the previous
invocation's terminal delivery has completed. -/
theorem seqRun_runIter (t : Nat) (ev : IterEv) :
    seqRun false (runIter t ev).1 ≠ none ∧
    (∀ t', (runIter t ev).2 = some t' → seqRun false (runIter t ev).1 = some false) := by
  obtain ⟨poll, handler, ep, rps⟩ := ev
  cases poll with
  | hang =>
    refine ⟨by simp [runIter, seqRun, seqStep], ?_⟩
    intro t' h
    simp [runIter] at h
  | err d =>
    by_cases hd : t + WATCHDOG_MS < t + d
    · refine ⟨by simp [runIter, hd, seqRun, seqStep], ?_⟩
      intro t' h
      simp [runIter, hd] at h
    · exact ⟨by simp [runIter, hd, seqRun, seqStep],
        fun t' _ => by simp [runIter, hd, seqRun, seqStep]⟩
  | ok d headers body =>
    by_cases hd : t + WATCHDOG_MS < t + d
    · refine ⟨by simp [runIter, hd, seqRun, seqStep], ?_⟩
      intro t' h
      simp [runIter, hd] at h
    · cases hj : jsonParse body with
      | none =>
        exact ⟨by simp [runIter, hd, hj, seqRun, seqStep],
          fun t' _ => by simp [runIter, hd, hj, seqRun, seqStep]⟩
      | some event =>
        cases handler with
        | hangSync =>
          refine ⟨by simp [runIter, hd, hj, seqRun, seqStep], ?_⟩
          intro t' h
          simp [runIter, hd, hj] at h
        | hangAsync =>
          refine ⟨by simp [runIter, hd, hj, seqRun, seqStep], ?_⟩
          intro t' h
          simp [runIter, hd, hj] at h
        | throws dh msg stack =>
          by_cases hd2 : t + WATCHDOG_MS < t + d + dh
          · refine ⟨by simp [runIter, hd, hj, hd2, seqRun, seqStep], ?_⟩
            intro t' h
            simp [runIter, hd, hj, hd2] at h
          · have hsub := seqRun_doErrPost (t + WATCHDOG_MS) (t + d + dh)
              (hLookup headers reqIdHeader) msg stack ep
            refine ⟨?_, ?_⟩
            · simpa [runIter, hd, hj, hd2, seqRun, seqStep] using hsub.1
            · intro t' h
              simp only [runIter, if_neg hd, hj, if_neg hd2] at h ⊢
              simpa [seqRun, seqStep] using hsub.2 t' h
        | ret dh v =>
          by_cases hd2 : t + WATCHDOG_MS < t + d + dh
          · refine ⟨by simp [runIter, hd, hj, hd2, seqRun, seqStep], ?_⟩
            intro t' h
            simp [runIter, hd, hj, hd2] at h
          · have hsub := seqRun_respRetry (t + WATCHDOG_MS)
              (responsePath (hLookup headers reqIdHeader)) (jsonStringify v) rps (t + d + dh)
            refine ⟨?_, ?_⟩
            · simpa [runIter, hd, hj, hd2, seqRun, seqStep] using hsub.1
            · intro t' h
              simp only [runIter, if_neg hd, hj, if_neg hd2] at h ⊢
              simpa [seqRun, seqStep] using hsub.2 t' h

/-- C1 helper: the loop trace never violates the single-in-flight automaton,
from any iteration start time. -/
theorem seqRun_runLoop (evs : List IterEv) : ∀ (t : Nat),
    (seqRun false (runLoop t evs)).isSome = true := by
  induction evs with
  | nil => intro t; simp [runLoop, seqRun]
  | cons ev rest ih =>
    intro t
    rw [runLoop_cons, seqRun_append]
    cases hr : (runIter t ev).2 with
    | some t' =>
      rw [(seqRun_runIter t ev).2 t' hr]
      exact ih t'
    | none =>
      cases hs : seqRun false (runIter t ev).1 with
      | none => exact absurd hs (seqRun_runIter t ev).1
      | some b' => simp [seqRun]

/-- During the response retry loop every POST goes to the response path built
from the current request id. -/
theorem ridRun_respRetry (D : Nat) (rid : Option String) (b : String) :
    ∀ (outs : List PostOut) (now : Nat),
      ridRun (some rid) (respRetry D (responsePath rid) b now outs).1 = some (some rid) := by
  intro outs
  induction outs with
  | nil => intro now; simp [respRetry, ridRun, ridStep]
  | cons o rest ih =>
    intro now
    cases o with
    | hang => simp [respRetry, ridRun, ridStep]
    | comp d ok =>
      cases ok with
      | true =>
        by_cases hd : D < now + d
        · simp [respRetry, hd, ridRun, ridStep]
        · simp [respRetry, hd, ridRun, ridStep]
      | false =>
        by_cases hd : D < now + d
        · simp [respRetry, hd, ridRun, ridStep]
        · by_cases hd2 : D < now + d + 500
          · simp [respRetry, hd, hd2, ridRun, ridStep]
          · simpa [respRetry, hd, hd2, ridRun, ridStep] using ih (now + d + 500)

/-- The invocation-error POST goes to the error path built from the current
request id. -/
theorem ridRun_doErrPost (D now : Nat) (rid : Option String) (msg : String)
    (stack : Option (List String)) (o : PostOut) :
    ridRun (some rid) (doErrPost D now rid msg stack o).1 = some (some rid) := by
  cases o with
  | hang => simp [doErrPost, ridRun, ridStep]
  | comp d ok =>
    cases ok with
    | true =>
      by_cases hd : D < now + d
      · simp [doErrPost, hd, ridRun, ridStep]
      · simp [doErrPost, hd, ridRun, ridStep]
    | false =>
      by_cases hd : D < now + d
      · simp [doErrPost, hd, ridRun, ridStep]
      · simp [doErrPost, hd, ridRun, ridStep]

/-- Within one loop iteration the request-id automaton never flags a
violation, whatever request id earlier iterations left. -/
theorem ridRun_runIter (t : Nat) (ev : IterEv) : ∀ (cur : Option (Option String)),
    (ridRun cur (runIter t ev).1).isSome = true := by
  intro cur
  obtain ⟨poll, handler, ep, rps⟩ := ev
  cases poll with
  | hang => simp [runIter, ridRun, ridStep]
  | err d =>
    by_cases hd : t + WATCHDOG_MS < t + d
    · simp [runIter, hd, ridRun, ridStep]
    · simp [runIter, hd, ridRun, ridStep]
  | ok d headers body =>
    by_cases hd : t + WATCHDOG_MS < t + d
    · simp [runIter, hd, ridRun, ridStep]
    · cases hj : jsonParse body with
      | none => simp [runIter, hd, hj, ridRun, ridStep]
      | some event =>
        cases handler with
        | hangSync => simp [runIter, hd, hj, ridRun, ridStep]
        | hangAsync => simp [runIter, hd, hj, ridRun, ridStep]
        | throws dh msg stack =>
          by_cases hd2 : t + WATCHDOG_MS < t + d + dh
          · simp [runIter, hd, hj, hd2, ridRun, ridStep]
          · have hsub := ridRun_doErrPost (t + WATCHDOG_MS) (t + d + dh)
              (hLookup headers reqIdHeader) msg stack ep
            simp only [runIter, if_neg hd, hj, if_neg hd2]
            simpa [ridRun, ridStep] using congrArg Option.isSome hsub
        | ret dh v =>
          by_cases hd2 : t + WATCHDOG_MS < t + d + dh
          · simp [runIter, hd, hj, hd2, ridRun, ridStep]
          · have hsub := ridRun_respRetry (t + WATCHDOG_MS)
              (hLookup headers reqIdHeader) (jsonStringify v) rps (t + d + dh)
            simp only [runIter, if_neg hd, hj, if_neg hd2]
            simpa [ridRun, ridStep] using congrArg Option.isSome hsub

/-- C2 helper: the loop trace never violates the request-id automaton. -/
theorem ridRun_runLoop (evs : List IterEv) : ∀ (t : Nat) (cur : Option (Option String)),
    (ridRun cur (runLoop t evs)).isSome = true := by
  induction evs with
  | nil => intro t cur; simp [runLoop, ridRun]
  | cons ev rest ih =>
    intro t cur
    rw [runLoop_cons, ridRun_append]
    cases hs : ridRun cur (runIter t ev).1 with
    | none =>
      have := ridRun_runIter t ev cur
      rw [hs] at this
      simp at this
    | some cur' =>
      cases hr : (runIter t ev).2 with
      | some t' => exact ih t' cur'
      | none => simp [ridRun]

/-! ## Claim C1 -/

/-- C1 (strict sequential processing): in every execution of the invocation
loop, the trace never issues a poll, nor starts a handler call, while an
invocation's terminal delivery (invocation-error POST completion, or a
successful invocation-response POST) is outstanding — formalized by the
single-in-flight automaton `seqRun` accepting every loop trace, from any
start time and for every environment oracle.  At most one invocation is in
flight at any time. -/
theorem C1_strict_sequential_processing (t : Nat) (evs : List IterEv) :
    (seqRun false (runLoop t evs)).isSome = true :=
  seqRun_runLoop evs t

/-! ## Claim C2 -/

/-- C2 (request-id threading): in every execution of the invocation loop,
every invocation-error POST and every invocation-response POST uses exactly
the path built from the request id extracted (unchanged) from the
`lambda-runtime-aws-request-id` header of the most recent poll response —
formalized by the request-id automaton `ridRun` accepting every loop trace
for every environment oracle. -/
theorem C2_request_id_threading (t : Nat) (evs : List IterEv) :
    (ridRun none (runLoop t evs)).isSome = true :=
  ridRun_runLoop evs t none

/-! ## Claims C3 and C4: the watchdog -/

/-- Every loop iteration starts by re-arming the watchdog for exactly
`1000 * 60 * 15` ms and then issuing the poll. -/
theorem runIter_head (t : Nat) (ev : IterEv) :
    ∃ tail, (runIter t ev).1 =
      (t, .arm (t + WATCHDOG_MS)) :: (t, .getReq pollPath) :: tail := by
  obtain ⟨p, h, ep, rp⟩ := ev
  cases p with
  | hang => exact ⟨_, rfl⟩
  | err d =>
    by_cases hd : t + WATCHDOG_MS < t + d
    · exact ⟨_, by simp [runIter, hd]; try rfl⟩
    · exact ⟨_, by simp [runIter, hd]; try rfl⟩
  | ok d headers body =>
    by_cases hd : t + WATCHDOG_MS < t + d
    · exact ⟨_, by simp [runIter, hd]; try rfl⟩
    · cases hj : jsonParse body with
      | none => exact ⟨_, by simp [runIter, hd, hj]; try rfl⟩
      | some e =>
        cases h with
        | hangSync => exact ⟨_, by simp [runIter, hd, hj]; try rfl⟩
        | hangAsync => exact ⟨_, by simp [runIter, hd, hj]; try rfl⟩
        | throws dh msg stack =>
          by_cases hd2 : t + WATCHDOG_MS < t + d + dh
          · exact ⟨_, by simp [runIter, hd, hj, hd2]; try rfl⟩
          · exact ⟨_, by simp [runIter, hd, hj, hd2]; try rfl⟩
        | ret dh v =>
          by_cases hd2 : t + WATCHDOG_MS < t + d + dh
          · exact ⟨_, by simp [runIter, hd, hj, hd2]; try rfl⟩
          · exact ⟨_, by simp [runIter, hd, hj, hd2]; try rfl⟩

/-- Environment of the C3 counterexample: a fast successful poll, then a
handler that suspends forever at an `await` which never resolves. -/
def c3Headers : List (String × String) := [(reqIdHeader, "r-3"), (arnHeader, "arn-3")]

/-- The C3 counterexample iteration event. -/
def c3Ev : IterEv := ⟨.ok 0 c3Headers "1", .hangAsync, .hang, []⟩

/-- C3 counterexample: the claim says that when a handler call never
completes the loop blocks forever and the process never exits, and that the
watchdog exit-0 fires only from the awaiting state.  In the code the
`setTimeout` armed at the top of the iteration is only cleared at the next
iteration top, so with a handler suspended forever at an `await` the timer
callback runs at the deadline and the process exits 0 mid-invocation: the
trace ends in `exit 0` right after `invokeStart`, with no handler completion
and no delivery in between. -/
theorem C3_counterexample :
    runLoop 0 [c3Ev] =
      [(0, .arm WATCHDOG_MS), (0, .getReq pollPath), (0, .getOk c3Headers "1"),
       (0, .invokeStart (.num 1) (some "r-3") (some "arn-3")),
       (WATCHDOG_MS, .exit 0)] ∧
    hasExitCode 0 (runLoop 0 [c3Ev]) = true :=
  ⟨rfl, rfl⟩

/-- C3 as amended: a handler that hangs in a synchronous loop starves the
event loop, so no timer can fire and the process never exits — the trace
stops at `invokeStart` forever, whatever further environment events are
available; a handler that hangs suspended at an `await` is pre-empted by the
watchdog still armed from the start of the iteration, and the process exits
0 while the invocation is in flight. -/
theorem C3_amended (t d : Nat) (headers : List (String × String)) (body : String)
    (e : JSVal) (ep : PostOut) (rps : List PostOut) (rest : List IterEv)
    (hd : d ≤ WATCHDOG_MS) (hj : jsonParse body = some e) :
    (runLoop t (⟨.ok d headers body, .hangSync, ep, rps⟩ :: rest) =
      [(t, .arm (t + WATCHDOG_MS)), (t, .getReq pollPath), (t + d, .getOk headers body),
       (t + d, .invokeStart e (hLookup headers reqIdHeader) (hLookup headers arnHeader))] ∧
     hasAnyExit (runLoop t (⟨.ok d headers body, .hangSync, ep, rps⟩ :: rest)) = false) ∧
    runLoop t (⟨.ok d headers body, .hangAsync, ep, rps⟩ :: rest) =
      [(t, .arm (t + WATCHDOG_MS)), (t, .getReq pollPath), (t + d, .getOk headers body),
       (t + d, .invokeStart e (hLookup headers reqIdHeader) (hLookup headers arnHeader)),
       (t + WATCHDOG_MS, .exit 0)] := by
  have hc : ¬ (t + WATCHDOG_MS < t + d) := by omega
  have h1 : runLoop t (⟨.ok d headers body, .hangSync, ep, rps⟩ :: rest) =
      [(t, .arm (t + WATCHDOG_MS)), (t, .getReq pollPath), (t + d, .getOk headers body),
       (t + d, .invokeStart e (hLookup headers reqIdHeader) (hLookup headers arnHeader))] := by
    rw [runLoop_cons]
    simp [runIter, hc, hj]
  refine ⟨⟨h1, ?_⟩, ?_⟩
  · rw [h1]; rfl
  · rw [runLoop_cons]
    simp [runIter, hc, hj]

/-- Witness for `C3_amended` at a concrete input. -/
theorem C3_amended_witness :
    (runLoop 0 [(⟨.ok 0 c3Headers "1", .hangSync, .hang, []⟩ : IterEv)] =
      [(0, .arm (0 + WATCHDOG_MS)), (0, .getReq pollPath), (0 + 0, .getOk c3Headers "1"),
       (0 + 0, .invokeStart (.num 1) (hLookup c3Headers reqIdHeader)
          (hLookup c3Headers arnHeader))] ∧
     hasAnyExit (runLoop 0 [(⟨.ok 0 c3Headers "1", .hangSync, .hang, []⟩ : IterEv)]) = false) ∧
    runLoop 0 [(⟨.ok 0 c3Headers "1", .hangAsync, .hang, []⟩ : IterEv)] =
      [(0, .arm (0 + WATCHDOG_MS)), (0, .getReq pollPath), (0 + 0, .getOk c3Headers "1"),
       (0 + 0, .invokeStart (.num 1) (hLookup c3Headers reqIdHeader)
          (hLookup c3Headers arnHeader)),
       (0 + WATCHDOG_MS, .exit 0)] :=
  C3_amended 0 0 c3Headers "1" (.num 1) .hang [] [] (by omega) rfl

/-- Environment of the C4 counterexample: the poll transport fails after 600
seconds, twice in a row. -/
def c4Evs : List IterEv :=
  [⟨.err 600000, .hangSync, .hang, []⟩, ⟨.err 600000, .hangSync, .hang, []⟩]

/-- C4 counterexample: the claim says that in every execution in which no
invocation is polled within the 900-second idle window the process exits 0.
But a failed poll makes the loop `continue`, and the top of the next
iteration re-arms the watchdog; with two polls that each fail after 600 s,
1 200 s elapse with no invocation ever polled and no exit at all. -/
theorem C4_counterexample :
    countActs isGetOk (runLoop 0 c4Evs) = 0 ∧
    WATCHDOG_MS ≤ maxTime (runLoop 0 c4Evs) ∧
    hasAnyExit (runLoop 0 c4Evs) = false := by
  refine ⟨rfl, by decide, rfl⟩

/-- C4 as amended: the watchdog duration is exactly `1000 * 60 * 15` ms =
900 s, and the timer is re-armed at the top of every loop iteration — i.e.
on every re-entry into polling, including immediately after a failed poll —
so expiry only happens when one iteration's blocking waits span the deadline;
in particular if the poll blocks forever with no work, the process exits 0
at exactly 900 s after the re-arm. -/
theorem C4_amended (t : Nat) (ev : IterEv) (rest : List IterEv) :
    (∃ tail, runLoop t (ev :: rest) =
      (t, .arm (t + 1000 * 60 * 15)) :: (t, .getReq pollPath) :: tail) ∧
    (ev.poll = .hang → runLoop t (ev :: rest) =
      [(t, .arm (t + WATCHDOG_MS)), (t, .getReq pollPath), (t + WATCHDOG_MS, .exit 0)]) := by
  constructor
  · obtain ⟨tail, htail⟩ := runIter_head t ev
    refine ⟨tail ++ (match (runIter t ev).2 with
      | some t' => runLoop t' rest
      | none => []), ?_⟩
    rw [runLoop_cons, htail]
    simp [WATCHDOG_MS]
  · intro hp
    obtain ⟨p, h, epo, rp⟩ := ev
    cases hp
    rw [runLoop_cons]
    rfl

/-- Witness for `C4_amended` at a concrete input. -/
theorem C4_amended_witness :
    (∃ tail, runLoop 0 [(⟨.hang, .hangSync, .hang, []⟩ : IterEv)] =
      (0, .arm (0 + 1000 * 60 * 15)) :: (0, .getReq pollPath) :: tail) ∧
    runLoop 0 [(⟨.hang, .hangSync, .hang, []⟩ : IterEv)] =
      [(0, .arm (0 + WATCHDOG_MS)), (0, .getReq pollPath), (0 + WATCHDOG_MS, .exit 0)] :=
  ⟨(C4_amended 0 ⟨.hang, .hangSync, .hang, []⟩ []).1,
   (C4_amended 0 ⟨.hang, .hangSync, .hang, []⟩ []).2 rfl⟩

/-! ## Claim C5: response delivery -/

/-- Total duration of a list of waits. -/
def durSum (fs : List Nat) : Nat := fs.foldr (fun a b => a + b) 0

/-- Failing POST attempts with the given transport durations. -/
def failDurs (fs : List Nat) : List PostOut := fs.map (fun d => .comp d false)

/-- Environment of the C5 counterexample: handler succeeds instantly, but the
response POST's transport failure takes longer than the watchdog deadline
still armed from the start of the iteration. -/
def c5Ev : IterEv :=
  ⟨.ok 0 [(reqIdHeader, "r-5")] "null", .ret 0 .null, .hang, [.comp 900001 false]⟩

/-- C5 counterexample: the claim says a successful handler result is retried
indefinitely until one POST succeeds, delivering exactly one final response.
But the watchdog armed at the top of the iteration is not cleared during the
retry loop: here it fires during the first (slow, failing) POST attempt and
the process exits 0 with the response never delivered. -/
theorem C5_counterexample :
    runLoop 0 [c5Ev] =
      [(0, .arm WATCHDOG_MS), (0, .getReq pollPath),
       (0, .getOk [(reqIdHeader, "r-5")] "null"),
       (0, .invokeStart .null (some "r-5") none),
       (0, .invokeRet .null),
       (0, .respPostReq (responsePath (some "r-5")) "null"),
       (WATCHDOG_MS, .exit 0)] ∧
    countActs isRespPostOk (runLoop 0 [c5Ev]) = 0 ∧
    hasExitCode 0 (runLoop 0 [c5Ev]) = true :=
  ⟨rfl, rfl, rfl⟩

/-- The retry loop of the response delivery, when the environment fails the
POST `fs.length` times and then succeeds, all within the armed deadline:
exactly one successful POST, one attempt per failure plus the final one,
every failed attempt immediately followed by the fixed 500 ms wait, no exit,
and the outer loop proceeds at the accumulated time. -/
theorem respRetry_spec (D : Nat) (p b : String) :
    ∀ (fs : List Nat) (now ds : Nat) (junk : List PostOut),
      now + durSum fs + 500 * fs.length + ds ≤ D →
      (respRetry D p b now (failDurs fs ++ .comp ds true :: junk)).2 =
        some (now + durSum fs + 500 * fs.length + ds) ∧
      countActs isRespPostOk (respRetry D p b now (failDurs fs ++ .comp ds true :: junk)).1 = 1 ∧
      countActs isRespPostReq (respRetry D p b now (failDurs fs ++ .comp ds true :: junk)).1 =
        fs.length + 1 ∧
      postErrThenSleep (respRetry D p b now (failDurs fs ++ .comp ds true :: junk)).1 = true ∧
      hasAnyExit (respRetry D p b now (failDurs fs ++ .comp ds true :: junk)).1 = false := by
  intro fs
  induction fs with
  | nil =>
    intro now ds junk hb
    have hc : ¬ (D < now + ds) := by
      simp [durSum] at hb
      omega
    refine ⟨?_, ?_, ?_, ?_, ?_⟩ <;>
      simp [failDurs, respRetry, hc, countActs, isRespPostOk, isRespPostReq,
        postErrThenSleep, hasAnyExit, isExit, durSum]
  | cons f fs' ih =>
    intro now ds junk hb
    have hb' : (now + f + 500) + durSum fs' + 500 * fs'.length + ds ≤ D := by
      simp [durSum, List.length_cons] at hb ⊢
      omega
    have hc1 : ¬ (D < now + f) := by
      simp [durSum, List.length_cons] at hb
      omega
    have hc2 : ¬ (D < now + f + 500) := by
      simp [durSum, List.length_cons] at hb
      omega
    have hrec := ih (now + f + 500) ds junk hb'
    obtain ⟨h1, h2, h3, h4, h5⟩ := hrec
    refine ⟨?_, ?_, ?_, ?_, ?_⟩
    · simp only [failDurs, List.map_cons, List.cons_append, respRetry, if_neg hc1, if_neg hc2,
        List.append_eq]
      rw [show (failDurs fs' ++ PostOut.comp ds true :: junk) =
        (fs'.map (fun d => PostOut.comp d false) ++ PostOut.comp ds true :: junk) from rfl] at h1
      rw [h1]
      congr 1
      simp only [durSum, List.foldr_cons, List.length_cons]
      ring
    · simpa [failDurs, respRetry, if_neg hc1, if_neg hc2, countActs, isRespPostOk] using h2
    · simpa [failDurs, respRetry, if_neg hc1, if_neg hc2, countActs, isRespPostReq] using h3
    · simpa [failDurs, respRetry, if_neg hc1, if_neg hc2, postErrThenSleep] using h4
    · simpa [failDurs, respRetry, if_neg hc1, if_neg hc2, hasAnyExit, isExit] using h5

/-- C5 as amended: when the handler succeeds and some response POST attempt
succeeds before the watchdog deadline (armed at the start of the iteration),
the iteration delivers exactly one final response, issues one POST per
transport failure plus the successful one, waits the fixed 500 ms after each
failure, never exits, and only then proceeds to the next poll; when no
attempt succeeds before the deadline, the watchdog exits the process
(see the counterexample). -/
theorem C5_amended (t dp dh : Nat) (headers : List (String × String)) (body : String)
    (e v : JSVal) (ep : PostOut) (fs : List Nat) (ds : Nat) (junk : List PostOut)
    (rest : List IterEv)
    (hj : jsonParse body = some e)
    (hb : dp + dh + durSum fs + 500 * fs.length + ds ≤ WATCHDOG_MS) :
    ∃ acts tEnd,
      runLoop t
          (⟨.ok dp headers body, .ret dh v, ep, failDurs fs ++ .comp ds true :: junk⟩ :: rest) =
        acts ++ runLoop tEnd rest ∧
      countActs isRespPostOk acts = 1 ∧
      countActs isRespPostReq acts = fs.length + 1 ∧
      postErrThenSleep acts = true ∧
      hasAnyExit acts = false ∧
      tEnd = t + dp + dh + durSum fs + 500 * fs.length + ds := by
  have hc1 : ¬ (t + WATCHDOG_MS < t + dp) := by omega
  have hc2 : ¬ (t + WATCHDOG_MS < t + dp + dh) := by omega
  have hbb : (t + dp + dh) + durSum fs + 500 * fs.length + ds ≤ t + WATCHDOG_MS := by omega
  have hspec := respRetry_spec (t + WATCHDOG_MS)
    (responsePath (hLookup headers reqIdHeader)) (jsonStringify v) fs (t + dp + dh) ds junk hbb
  obtain ⟨h1, h2, h3, h4, h5⟩ := hspec
  refine ⟨[(t, .arm (t + WATCHDOG_MS)), (t, .getReq pollPath), (t + dp, .getOk headers body),
      (t + dp, .invokeStart e (hLookup headers reqIdHeader) (hLookup headers arnHeader)),
      (t + dp + dh, .invokeRet v)] ++
      (respRetry (t + WATCHDOG_MS) (responsePath (hLookup headers reqIdHeader))
        (jsonStringify v) (t + dp + dh) (failDurs fs ++ .comp ds true :: junk)).1,
    t + dp + dh + durSum fs + 500 * fs.length + ds, ?_, ?_, ?_, ?_, ?_, rfl⟩
  · rw [runLoop_cons]
    simp only [runIter, if_neg hc1, hj, if_neg hc2, failDurs]
    rw [show (fs.map (fun d => PostOut.comp d false)) = failDurs fs from rfl, h1]
    simp
  · simpa [countActs, isRespPostOk] using h2
  · simpa [countActs, isRespPostReq] using h3
  · simpa [postErrThenSleep] using h4
  · simpa [hasAnyExit, isExit] using h5

/-- Witness for `C5_amended`: the spec's own scenario — the response POST
fails twice, then succeeds. -/
theorem C5_amended_witness :
    ∃ acts tEnd,
      runLoop 0
          ((⟨.ok 0 [(reqIdHeader, "r-5")] "null", .ret 0 .null, .hang,
              failDurs [100, 100] ++ .comp 0 true :: []⟩ : IterEv) :: []) =
        acts ++ runLoop tEnd [] ∧
      countActs isRespPostOk acts = 1 ∧
      countActs isRespPostReq acts = 2 + 1 ∧
      postErrThenSleep acts = true ∧
      hasAnyExit acts = false ∧
      tEnd = 0 + 0 + 0 + durSum [100, 100] + 500 * 2 + 0 :=
  C5_amended 0 0 0 [(reqIdHeader, "r-5")] "null" .null .null .hang [100, 100] 0 [] []
    rfl (by decide)

/-! ## Claim C6: invocation-error delivery -/

/-- Environment of the C6 counterexample: the handler throws instantly and
the invocation-error POST fails at the transport level after 1 ms; a further
poll would be available. -/
def c6Ev : IterEv := ⟨.ok 0 c3Headers "1", .throws 0 "boom" none, .comp 1 false, []⟩

/-- C6 counterexample: the claim says the loop proceeds regardless of whether
the invocation-error POST succeeds or fails at the transport level, and that
a failed error delivery never terminates the loop or the process.  But the
`await fetch(...)` in the handler's `catch` block is not guarded by a try of
its own: a transport-level rejection escapes the catch and the top-level
module evaluation, and the worker dies (exit code 1) — the trace ends right
after the failed POST, with exactly one poll ever issued although a second
iteration event was available. -/
theorem C6_counterexample :
    runLoop 0 [c6Ev, ⟨.err 1, .hangSync, .hang, []⟩] =
      [(0, .arm WATCHDOG_MS), (0, .getReq pollPath), (0, .getOk c3Headers "1"),
       (0, .invokeStart (.num 1) (some "r-3") (some "arn-3")),
       (0, .invokeThrew "boom"),
       (0, .errPostReq (errorPath (some "r-3")) (errorBody "boom" none)),
       (1, .errPostDone false), (1, .exit 1)] ∧
    countActs isGetReq (runLoop 0 [c6Ev, ⟨.err 1, .hangSync, .hang, []⟩]) = 1 ∧
    hasExitCode 1 (runLoop 0 [c6Ev, ⟨.err 1, .hangSync, .hang, []⟩]) = true :=
  ⟨rfl, rfl, rfl⟩

/-- C6 as amended: when the handler throws, the loop issues exactly one
invocation-error POST for that invocation's request id and awaits it once;
if the POST resolves (whatever the HTTP status) before the watchdog
deadline, the loop proceeds to the next poll with no exit; if the POST is
rejected at the transport level, the rejection escapes the `catch` block and
the process terminates with exit code 1, never polling again. -/
theorem C6_amended (t dp dh de : Nat)
    (headers : List (String × String)) (body : String) (e : JSVal)
    (msg : String) (stack : Option (List String)) (rps : List PostOut)
    (rest : List IterEv)
    (hj : jsonParse body = some e)
    (hb : dp + dh + de ≤ WATCHDOG_MS) :
    (runLoop t (⟨.ok dp headers body, .throws dh msg stack, .comp de true, rps⟩ :: rest) =
      [(t, .arm (t + WATCHDOG_MS)), (t, .getReq pollPath), (t + dp, .getOk headers body),
       (t + dp, .invokeStart e (hLookup headers reqIdHeader) (hLookup headers arnHeader)),
       (t + dp + dh, .invokeThrew msg),
       (t + dp + dh, .errPostReq (errorPath (hLookup headers reqIdHeader))
          (errorBody msg stack)),
       (t + dp + dh + de, .errPostDone true)] ++ runLoop (t + dp + dh + de) rest) ∧
    (runLoop t (⟨.ok dp headers body, .throws dh msg stack, .comp de false, rps⟩ :: rest) =
      [(t, .arm (t + WATCHDOG_MS)), (t, .getReq pollPath), (t + dp, .getOk headers body),
       (t + dp, .invokeStart e (hLookup headers reqIdHeader) (hLookup headers arnHeader)),
       (t + dp + dh, .invokeThrew msg),
       (t + dp + dh, .errPostReq (errorPath (hLookup headers reqIdHeader))
          (errorBody msg stack)),
       (t + dp + dh + de, .errPostDone false), (t + dp + dh + de, .exit 1)]) ∧
    countActs isErrPostReq
      (runIter t ⟨.ok dp headers body, .throws dh msg stack, .comp de true, rps⟩).1 = 1 ∧
    countActs isErrPostReq
      (runIter t ⟨.ok dp headers body, .throws dh msg stack, .comp de false, rps⟩).1 = 1 := by
  have hc1 : ¬ (t + WATCHDOG_MS < t + dp) := by omega
  have hc2 : ¬ (t + WATCHDOG_MS < t + dp + dh) := by omega
  have hc3 : ¬ (t + WATCHDOG_MS < t + dp + dh + de) := by omega
  refine ⟨?_, ?_, ?_, ?_⟩
  · rw [runLoop_cons]
    simp [runIter, doErrPost, hj, hc1, hc2, hc3]
  · rw [runLoop_cons]
    simp [runIter, doErrPost, hj, hc1, hc2, hc3]
  · simp [runIter, doErrPost, hj, hc1, hc2, hc3, countActs, isErrPostReq]
  · simp [runIter, doErrPost, hj, hc1, hc2, hc3, countActs, isErrPostReq]

/-- Witness for `C6_amended` at a concrete input. -/
theorem C6_amended_witness :
    (runLoop 0 ((⟨.ok 0 c3Headers "1", .throws 5 "boom" (some ["l1"]), .comp 4 true,
        []⟩ : IterEv) :: [(⟨.err 1, .hangSync, .hang, []⟩ : IterEv)]) =
      [(0, .arm (0 + WATCHDOG_MS)), (0, .getReq pollPath), (0 + 0, .getOk c3Headers "1"),
       (0 + 0, .invokeStart (.num 1) (hLookup c3Headers reqIdHeader)
          (hLookup c3Headers arnHeader)),
       (0 + 0 + 5, .invokeThrew "boom"),
       (0 + 0 + 5, .errPostReq (errorPath (hLookup c3Headers reqIdHeader))
          (errorBody "boom" (some ["l1"]))),
       (0 + 0 + 5 + 4, .errPostDone true)] ++
        runLoop (0 + 0 + 5 + 4) [(⟨.err 1, .hangSync, .hang, []⟩ : IterEv)]) ∧
    (runLoop 0 ((⟨.ok 0 c3Headers "1", .throws 5 "boom" (some ["l1"]), .comp 4 false,
        []⟩ : IterEv) :: [(⟨.err 1, .hangSync, .hang, []⟩ : IterEv)]) =
      [(0, .arm (0 + WATCHDOG_MS)), (0, .getReq pollPath), (0 + 0, .getOk c3Headers "1"),
       (0 + 0, .invokeStart (.num 1) (hLookup c3Headers reqIdHeader)
          (hLookup c3Headers arnHeader)),
       (0 + 0 + 5, .invokeThrew "boom"),
       (0 + 0 + 5, .errPostReq (errorPath (hLookup c3Headers reqIdHeader))
          (errorBody "boom" (some ["l1"]))),
       (0 + 0 + 5 + 4, .errPostDone false), (0 + 0 + 5 + 4, .exit 1)]) ∧
    countActs isErrPostReq
      (runIter 0 ⟨.ok 0 c3Headers "1", .throws 5 "boom" (some ["l1"]), .comp 4 true, []⟩).1
      = 1 ∧
    countActs isErrPostReq
      (runIter 0 ⟨.ok 0 c3Headers "1", .throws 5 "boom" (some ["l1"]), .comp 4 false, []⟩).1
      = 1 :=
  C6_amended 0 0 5 4 c3Headers "1" (.num 1) "boom" (some ["l1"]) []
    [⟨.err 1, .hangSync, .hang, []⟩] rfl (by decide)

/-! ## Claim C7: startup failure -/

/-- C7: whenever the handler locator resolves to no existing file, or the
module load throws, or the named export is absent, the startup `try` block
fails, the process POSTs exactly one init-error report and (as soon as that
POST completes, successfully or not) exits with code 1, and the trace
contains zero polls — whatever invocation events the environment would have
offered. -/
theorem C7_startup_failure (fsFiles : List String) (mods : String → Except String Module)
    (input : RunnerInput) (initStack : Option (List String)) (d : Nat) (okb : Bool)
    (evs : List IterEv)
    (h : resolveFile fsFiles input = none ∨
         (∃ file m, resolveFile fsFiles input = some file ∧ mods file = .error m) ∨
         (∃ file exps, resolveFile fsFiles input = some file ∧ mods file = .ok exps ∧
            modLookup exps ((pathParse input.handler).ext.drop 1) = none)) :
    ∃ msg,
      runProgram fsFiles mods input initStack (.comp d okb) evs =
        [(0, .initPostReq initErrorPath (errorBody msg initStack)),
         (d, .initPostDone okb), (d, .exit 1)] ∧
      countActs isInitPostReq (runProgram fsFiles mods input initStack (.comp d okb) evs) = 1 ∧
      countActs isGetReq (runProgram fsFiles mods input initStack (.comp d okb) evs) = 0 ∧
      hasExitCode 1 (runProgram fsFiles mods input initStack (.comp d okb) evs) = true := by
  have hfail : ∃ msg, initStep fsFiles mods input = .fail msg := by
    rcases h with h1 | ⟨file, m, hf, hm⟩ | ⟨file, exps, hf, hm, hl⟩
    · exact ⟨_, by simp [initStep, h1]; try rfl⟩
    · exact ⟨_, by simp [initStep, hf, hm]; try rfl⟩
    · exact ⟨_, by simp [initStep, hf, hm, hl]; try rfl⟩
  obtain ⟨msg, hmsg⟩ := hfail
  refine ⟨msg, ?_, ?_, ?_, ?_⟩ <;>
    simp [runProgram, hmsg, countActs, isInitPostReq, isGetReq, hasExitCode]

/-- Witness for `C7_startup_failure`: no candidate file exists, and further
invocation events are available but never consumed. -/
theorem C7_witness :
    ∃ msg,
      runProgram [] (fun _ => .ok []) ⟨"api/hello.handler", "/build"⟩ none (.comp 0 true)
          [⟨.err 1, .hangSync, .hang, []⟩] =
        [(0, .initPostReq initErrorPath (errorBody msg none)),
         (0, .initPostDone true), (0, .exit 1)] ∧
      countActs isInitPostReq (runProgram [] (fun _ => .ok []) ⟨"api/hello.handler", "/build"⟩
        none (.comp 0 true) [⟨.err 1, .hangSync, .hang, []⟩]) = 1 ∧
      countActs isGetReq (runProgram [] (fun _ => .ok []) ⟨"api/hello.handler", "/build"⟩
        none (.comp 0 true) [⟨.err 1, .hangSync, .hang, []⟩]) = 0 ∧
      hasExitCode 1 (runProgram [] (fun _ => .ok []) ⟨"api/hello.handler", "/build"⟩
        none (.comp 0 true) [⟨.err 1, .hangSync, .hang, []⟩]) = true :=
  C7_startup_failure [] (fun _ => .ok []) ⟨"api/hello.handler", "/build"⟩ none 0 true
    [⟨.err 1, .hangSync, .hang, []⟩] (Or.inl rfl)

/-! ## Claim C8: payload pass-through -/

/-- Environment of the C8 counterexample: the poll body is the raw text `1`. -/
def c8Ev : IterEv := ⟨.ok 0 c3Headers "1", .ret 0 .null, .hang, [.comp 0 true]⟩

/-- C8 counterexample: the claim says the payload delivered to the handler as
its event argument is the raw body of the poll response.  The code passes
`JSON.parse(result.body)` instead: with raw body `"1"` the handler receives
the JSON number 1, not the one-character string — so the event is not the raw
body.  (The context headers are threaded verbatim; only the payload part of
the claim fails.) -/
theorem C8_counterexample :
    runLoop 0 [c8Ev] =
      [(0, .arm WATCHDOG_MS), (0, .getReq pollPath), (0, .getOk c3Headers "1"),
       (0, .invokeStart (.num 1) (some "r-3") (some "arn-3")),
       (0, .invokeRet .null),
       (0, .respPostReq (responsePath (some "r-3")) "null"),
       (0, .respPostOk)] ∧
    JSVal.num 1 ≠ JSVal.str "1" :=
  ⟨rfl, fun h => nomatch h⟩

/-- C8 as amended: the payload delivered to the handler is the `JSON.parse`
of the raw poll body (a body that fails to parse never reaches the handler,
see C10), and the context carries `awsRequestId` and `invokedFunctionArn`
extracted verbatim from the two poll-response headers. -/
theorem C8_amended (t dp : Nat) (headers : List (String × String)) (body : String)
    (e : JSVal) (h : HOut) (ep : PostOut) (rps : List PostOut) (rest : List IterEv)
    (hdp : dp ≤ WATCHDOG_MS) (hj : jsonParse body = some e) :
    ∃ tail, runLoop t (⟨.ok dp headers body, h, ep, rps⟩ :: rest) =
      (t, .arm (t + WATCHDOG_MS)) :: (t, .getReq pollPath) ::
      (t + dp, .getOk headers body) ::
      (t + dp, .invokeStart e (hLookup headers reqIdHeader) (hLookup headers arnHeader)) ::
      tail := by
  have hc : ¬ (t + WATCHDOG_MS < t + dp) := by omega
  rw [runLoop_cons]
  cases h with
  | hangSync => exact ⟨_, by simp [runIter, hc, hj]; try rfl⟩
  | hangAsync => exact ⟨_, by simp [runIter, hc, hj]; try rfl⟩
  | throws dh msg stack =>
    by_cases hd2 : t + WATCHDOG_MS < t + dp + dh
    · exact ⟨_, by simp [runIter, hc, hj, hd2]; try rfl⟩
    · exact ⟨_, by simp [runIter, hc, hj, hd2]; try rfl⟩
  | ret dh v =>
    by_cases hd2 : t + WATCHDOG_MS < t + dp + dh
    · exact ⟨_, by simp [runIter, hc, hj, hd2]; try rfl⟩
    · exact ⟨_, by simp [runIter, hc, hj, hd2]; try rfl⟩

/-- Witness for `C8_amended` at a concrete input. -/
theorem C8_amended_witness :
    ∃ tail, runLoop 0 [(⟨.ok 0 c3Headers "\"ev\"", .hangSync, .hang, []⟩ : IterEv)] =
      (0, .arm (0 + WATCHDOG_MS)) :: (0, .getReq pollPath) ::
      (0 + 0, .getOk c3Headers "\"ev\"") ::
      (0 + 0, .invokeStart (.str "ev") (hLookup c3Headers reqIdHeader)
        (hLookup c3Headers arnHeader)) :: tail :=
  C8_amended 0 0 c3Headers "\"ev\"" (.str "ev") .hangSync .hang [] [] (by omega) rfl

/-! ## Claim C9: handler resolution algorithm -/

/-- First-match characterization of `List.find?`: if the element at index `i`
satisfies the predicate and no earlier one does, `find?` returns it. -/
theorem find?_first {α : Type} (p : α → Bool) :
    ∀ (l : List α) (i : Nat) (hi : i < l.length),
      p (l.get ⟨i, hi⟩) = true →
      (∀ j (hj : j < i), p (l.get ⟨j, Nat.lt_trans hj hi⟩) = false) →
      l.find? p = some (l.get ⟨i, hi⟩) := by
  intro l
  induction l with
  | nil => intro i hi _ _; exact absurd hi (by simp)
  | cons a tl ih =>
    intro i hi hp hprev
    cases i with
    | zero =>
      rw [List.find?_cons_of_pos _ (by simpa using hp)]
      simp
    | succ k =>
      have ha : p a = false := by simpa using hprev 0 (Nat.succ_pos k)
      rw [List.find?_cons_of_neg _ (by simp [ha])]
      have hk : k < tl.length := by simpa [Nat.succ_lt_succ_iff] using hi
      have := ih k hk (by simpa using hp)
        (fun j hj => by simpa using hprev (j + 1) (Nat.succ_lt_succ hj))
      simpa using this

/-- C9: (1) the resolver probes the candidate files built from the fixed
ordered extension list and the first existing one wins; (2) when the loaded
module's export named by the locator's trailing segment is present (with a
truthy value, as a function is), it becomes the handler; (3) when that
export is absent, startup fails with the diagnostic message that ends with
the comma-joined list of exports actually found in the module. -/
theorem C9_handler_resolution (fsFiles : List String) (mods : String → Except String Module)
    (input : RunnerInput) (i : Nat) (hi : i < (candidateFiles input).length)
    (file : String) (exps : Module) :
    (fsFiles.contains ((candidateFiles input).get ⟨i, hi⟩) = true →
     (∀ j (hj : j < i),
        fsFiles.contains ((candidateFiles input).get ⟨j, Nat.lt_trans hj hi⟩) = false) →
     resolveFile fsFiles input = some ((candidateFiles input).get ⟨i, hi⟩)) ∧
    (resolveFile fsFiles input = some file → mods file = .ok exps →
     modLookup exps ((pathParse input.handler).ext.drop 1) = some true →
     initStep fsFiles mods input = .ok file ((pathParse input.handler).ext.drop 1)) ∧
    (resolveFile fsFiles input = some file → mods file = .ok exps →
     modLookup exps ((pathParse input.handler).ext.drop 1) = none →
     initStep fsFiles mods input =
       .fail (notFoundMsg ((pathParse input.handler).ext.drop 1) input.handler
         (exps.map Prod.fst)) ∧
     ∃ pre, notFoundMsg ((pathParse input.handler).ext.drop 1) input.handler
         (exps.map Prod.fst) =
       pre ++ String.intercalate ", " (exps.map Prod.fst)) := by
  refine ⟨?_, ?_, ?_⟩
  · intro hp hprev
    exact find?_first (fun f => fsFiles.contains f) (candidateFiles input) i hi hp hprev
  · intro hr hm hl
    simp [initStep, hr, hm, hl]
  · intro hr hm hl
    refine ⟨by simp [initStep, hr, hm, hl], ⟨_, rfl⟩⟩

/-- Witness for `C9_handler_resolution`: locator `api/hello.handler`, output
directory `/build`; only `/build/api/hello.jsx` exists (the second candidate);
one module carrying the `handler` export and one without it. -/
theorem C9_witness :
    resolveFile ["/build/api/hello.jsx"] ⟨"api/hello.handler", "/build"⟩ =
      some ((candidateFiles ⟨"api/hello.handler", "/build"⟩).get ⟨1, by decide⟩) ∧
    initStep ["/build/api/hello.jsx"] (fun _ => .ok [("handler", true)])
        ⟨"api/hello.handler", "/build"⟩ = .ok "/build/api/hello.jsx" "handler" ∧
    initStep ["/build/api/hello.jsx"] (fun _ => .ok [("other", true), ("also", true)])
        ⟨"api/hello.handler", "/build"⟩ =
      .fail (notFoundMsg "handler" "api/hello.handler" ["other", "also"]) := by
  refine ⟨?_, ?_, ?_⟩
  · exact (C9_handler_resolution ["/build/api/hello.jsx"] (fun _ => .ok [])
      ⟨"api/hello.handler", "/build"⟩ 1 (by decide) "" []).1 rfl
      (fun j hj => by
        have hj0 : j = 0 := by omega
        subst hj0
        rfl)
  · exact (C9_handler_resolution ["/build/api/hello.jsx"] (fun _ => .ok [("handler", true)])
      ⟨"api/hello.handler", "/build"⟩ 1 (by decide) "/build/api/hello.jsx"
      [("handler", true)]).2.1 rfl rfl rfl
  · exact ((C9_handler_resolution ["/build/api/hello.jsx"]
      (fun _ => .ok [("other", true), ("also", true)])
      ⟨"api/hello.handler", "/build"⟩ 1 (by decide) "/build/api/hello.jsx"
      [("other", true), ("also", true)]).2.2 rfl rfl rfl).1

/-! ## Claim C10: invalid JSON bodies are silently discarded -/

/-- C10: a poll whose HTTP transfer succeeds but whose body fails
`JSON.parse` is silently discarded — the iteration emits no POST of any kind
(neither an invocation error nor a response), and the loop immediately
proceeds to the next poll; moreover the HTTP requests the control endpoint
observes are exactly the ones of a transport-failed poll taking the same
time. -/
theorem C10_invalid_json_discard (t dp : Nat) (headers : List (String × String))
    (body : String) (h h2 : HOut) (ep ep2 : PostOut) (rps rps2 : List PostOut)
    (rest : List IterEv)
    (hdp : dp ≤ WATCHDOG_MS) (hj : jsonParse body = none) :
    runLoop t (⟨.ok dp headers body, h, ep, rps⟩ :: rest) =
      [(t, .arm (t + WATCHDOG_MS)), (t, .getReq pollPath), (t + dp, .getOk headers body)] ++
        runLoop (t + dp) rest ∧
    countActs isAnyPostReq (runIter t ⟨.ok dp headers body, h, ep, rps⟩).1 = 0 ∧
    requestsOf (runLoop t (⟨.ok dp headers body, h, ep, rps⟩ :: rest)) =
      requestsOf (runLoop t (⟨.err dp, h2, ep2, rps2⟩ :: rest)) := by
  have hc : ¬ (t + WATCHDOG_MS < t + dp) := by omega
  have h1 : runLoop t (⟨.ok dp headers body, h, ep, rps⟩ :: rest) =
      [(t, .arm (t + WATCHDOG_MS)), (t, .getReq pollPath), (t + dp, .getOk headers body)] ++
        runLoop (t + dp) rest := by
    rw [runLoop_cons]
    simp [runIter, hc, hj]
  have h2' : runLoop t (⟨.err dp, h2, ep2, rps2⟩ :: rest) =
      [(t, .arm (t + WATCHDOG_MS)), (t, .getReq pollPath), (t + dp, .getErr)] ++
        runLoop (t + dp) rest := by
    rw [runLoop_cons]
    simp [runIter, hc]
  refine ⟨h1, ?_, ?_⟩
  · simp [runIter, hc, hj, countActs, isAnyPostReq]
  · rw [h1, h2']
    simp [requestsOf, List.filter_append, isRequest, isGetReq, isAnyPostReq]

/-- Witness for `C10_invalid_json_discard`: an empty body (which
`JSON.parse` rejects), followed by one more available poll. -/
theorem C10_witness :
    runLoop 0 ((⟨.ok 0 [] "", .hangSync, .hang, []⟩ : IterEv) ::
        [(⟨.err 1, .hangSync, .hang, []⟩ : IterEv)]) =
      [(0, .arm (0 + WATCHDOG_MS)), (0, .getReq pollPath), (0 + 0, .getOk [] "")] ++
        runLoop (0 + 0) [(⟨.err 1, .hangSync, .hang, []⟩ : IterEv)] ∧
    countActs isAnyPostReq (runIter 0 ⟨.ok 0 [] "", .hangSync, .hang, []⟩).1 = 0 ∧
    requestsOf (runLoop 0 ((⟨.ok 0 [] "", .hangSync, .hang, []⟩ : IterEv) ::
        [(⟨.err 1, .hangSync, .hang, []⟩ : IterEv)])) =
      requestsOf (runLoop 0 ((⟨.err 0, .hangSync, .hang, []⟩ : IterEv) ::
        [(⟨.err 1, .hangSync, .hang, []⟩ : IterEv)])) :=
  C10_invalid_json_discard 0 0 [] "" .hangSync .hangSync .hang .hang [] []
    [⟨.err 1, .hangSync, .hang, []⟩] (by omega) rfl

end SstNodeRuntime
